import Mathlib

/-!
Verification of the serverless FinOps dashboard (`app.py`).

The script is a single linear pipeline over one in-memory table:

1. CSV load with an auto-repair heuristic for degenerate single-column
   parses (`app.py` lines 19-48);
2. numeric coercion of eight columns, unparsable values becoming
   missing (lines 50-53);
3. six derived views: top cost contributors, memory right-sizing,
   provisioned-concurrency advice, low-value workloads, cost
   forecasting, containerization candidates (lines 58-153).

The embedding below models pandas cells and columns explicitly.
Floating-point `NaN` (the result of a failed coercion, a missing CSV
cell, or an undefined division) is modelled as `Option.none` over `ℚ`,
with NaN-propagating arithmetic and the pandas comparison rule that any
comparison against NaN is false.  Non-finite results of dividing by a
zero total are likewise modelled as `none`; no claim distinguishes
`inf` from `NaN`.
-/

namespace FinOps

/-- One cell of a raw (pre-coercion) pandas column: a string value, an
already-numeric value, or a missing value (`NaN`). -/
inductive Cell where
  | str (s : String)
  | num (q : ℚ)
  | missing
deriving DecidableEq, Repr

/-- Digit accumulator for `parseNum`: reads a digit run, failing on any
non-digit character. -/
def natOfDigitsAux (acc : Nat) : List Char → Option Nat
  | [] => some acc
  | c :: r => if c.isDigit then natOfDigitsAux (acc * 10 + (c.toNat - 48)) r else none

/-- Splits a character list at the first dot, returning the part before
it and (when a dot is present) the part after it. -/
def splitDot : List Char → (List Char × Option (List Char))
  | [] => ([], none)
  | '.' :: r => ([], some r)
  | c :: r =>
    let p := splitDot r
    (c :: p.1, p.2)

/-- Unsigned decimal literal: digits with an optional fractional part.
Models the numeric literals accepted by `pd.to_numeric`. -/
def parseUnsigned (cs : List Char) : Option ℚ :=
  let p := splitDot cs
  match p.2 with
  | none =>
    if p.1 = [] then none
    else (natOfDigitsAux 0 p.1).map (fun n => (n : ℚ))
  | some f =>
    if p.1 = [] ∧ f = [] then none
    else
      match natOfDigitsAux 0 p.1, natOfDigitsAux 0 f with
      | some n, some m => some ((n : ℚ) + (m : ℚ) / (10 : ℚ) ^ f.length)
      | _, _ => none

/-- Models the string-to-number conversion performed by
`pd.to_numeric(..., errors="coerce")` on one string cell: an optional
sign followed by a plain decimal literal; anything else fails. -/
def parseNum (s : String) : Option ℚ :=
  match s.toList with
  | '-' :: r => (parseUnsigned r).map (fun q => -q)
  | '+' :: r => parseUnsigned r
  | cs => parseUnsigned cs

/-- `pd.to_numeric(cell, errors="coerce")`: numeric cells pass through,
missing stays missing, strings are parsed with failures becoming
missing (`app.py` line 53). -/
def toNumericCell : Cell → Option ℚ
  | Cell.str s => parseNum s
  | Cell.num q => some q
  | Cell.missing => none

/-- Re-embeds the value of a coerced (float) column as a cell, as seen
by a second run of the coercion loop: a number or `NaN`. -/
def numericToCell : Option ℚ → Cell
  | some q => Cell.num q
  | none => Cell.missing

/-- The coercion of one column (`app.py` lines 50-53):
`df[col] = pd.to_numeric(df[col], errors="coerce")`. -/
def to_numeric (col : List Cell) : List (Option ℚ) :=
  col.map toNumericCell

/-- One coerced row of the table: the ten canonical columns assigned by
the loader, with the eight numeric columns nullable (post-coercion). -/
structure Row where
  FunctionName : String
  Environment : String
  InvocationsPerMonth : Option ℚ
  AvgDurationMs : Option ℚ
  MemoryMB : Option ℚ
  ColdStartRate : Option ℚ
  ProvisionedConcurrency : Option ℚ
  GBSeconds : Option ℚ
  DataTransferGB : Option ℚ
  CostUSD : Option ℚ
deriving DecidableEq, Repr

/-- Pandas comparison `series < c`: false on a missing value. -/
def optLtB (o : Option ℚ) (c : ℚ) : Bool :=
  match o with
  | some x => decide (x < c)
  | none => false

/-- Pandas comparison `series > c`: false on a missing value. -/
def optGtB (o : Option ℚ) (c : ℚ) : Bool :=
  match o with
  | some x => decide (c < x)
  | none => false

/-- Pandas comparison `series <= c`: false on a missing value. -/
def optLeB (o : Option ℚ) (c : ℚ) : Bool :=
  match o with
  | some x => decide (x ≤ c)
  | none => false

/-- Pandas comparison `series > other` between two nullable values:
false when either side is missing. -/
def optGtOB (a b : Option ℚ) : Bool :=
  match a, b with
  | some x, some y => decide (y < x)
  | _, _ => false

/-- NaN-propagating product of two nullable values. -/
def optMul (a b : Option ℚ) : Option ℚ :=
  a.bind fun x => b.map fun y => x * y

/-- NaN-propagating sum of two nullable values. -/
def optAdd (a b : Option ℚ) : Option ℚ :=
  a.bind fun x => b.map fun y => x + y

/-- NaN-propagating multiplication of a nullable value by a constant. -/
def optScale (a : Option ℚ) (c : ℚ) : Option ℚ :=
  a.map fun x => x * c

/-- Splits one CSV line into fields, modelling the pandas tokenizer:
a comma separates fields unless it occurs inside double quotes, and the
quote characters themselves are stripped.  (Escaped quotes inside
quoted fields are not modelled; no claim depends on them.) -/
def csvFieldsCh : Bool → List Char → List (List Char)
  | _, [] => [[]]
  | inq, '"' :: r => csvFieldsCh (!inq) r
  | false, ',' :: r => [] :: csvFieldsCh false r
  | true, ',' :: r =>
    match csvFieldsCh true r with
    | [] => [[',']]
    | f :: fs => (',' :: f) :: fs
  | inq, c :: r =>
    match csvFieldsCh inq r with
    | [] => [[c]]
    | f :: fs => (c :: f) :: fs

/-- The fields of one CSV line, as strings. -/
def fieldsOf (l : String) : List String :=
  (csvFieldsCh false l.toList).map fun cs => String.mk cs

/-- Plain split on the comma character with no quote handling,
modelling `Series.str.split(",")` used by the repair path. -/
def splitCommaCh : List Char → List (List Char)
  | [] => [[]]
  | ',' :: r => [] :: splitCommaCh r
  | c :: r =>
    match splitCommaCh r with
    | [] => [[c]]
    | f :: fs => (c :: f) :: fs

/-- The parsed dataframe before coercion: a header naming the columns,
and rows of raw cells, each row exactly as wide as the header. -/
structure RawDF where
  header : List String
  rows : List (List Cell)
deriving DecidableEq, Repr

/-- Pads a field list to `n` cells, short rows being filled with
missing values as pandas does. -/
def padTo (n : Nat) (fs : List String) : List Cell :=
  fs.map Cell.str ++ List.replicate (n - fs.length) Cell.missing

/-- Parses the data lines against a header of width `n`: a line with
more fields than the header raises the pandas tokenizer error, a line
with fewer is padded with missing values. -/
def parseRows (n : Nat) : List String → Except String (List (List Cell))
  | [] => Except.ok []
  | l :: rest =>
    let fs := fieldsOf l
    if n < fs.length then Except.error "Error tokenizing data"
    else (parseRows n rest).map fun rs => padTo n fs :: rs

/-- `pd.read_csv(uploaded)` (`app.py` line 20): the first line is the
header, the remaining lines are data rows; an empty file raises. -/
def readCSV (lines : List String) : Except String RawDF :=
  match lines with
  | [] => Except.error "No columns to parse from file"
  | h :: rest =>
    let hd := fieldsOf h
    (parseRows hd.length rest).map fun rs => RawDF.mk hd rs

/-- The fixed ten-name schema assigned by the repair path
(`app.py` lines 34-45). -/
def schemaNames : List String :=
  ["FunctionName", "Environment", "InvocationsPerMonth", "AvgDurationMs",
   "MemoryMB", "ColdStartRate", "ProvisionedConcurrency", "GBSeconds",
   "DataTransferGB", "CostUSD"]

/-- The first field of a line: the value of column 0 of the headerless
re-parse `pd.read_csv(uploaded, header=None)`.  The repair path is only
reached when the initial parse saw a single column, so every line has
exactly one field and that field is the whole (unquoted) line. -/
def headField (l : String) : String :=
  match fieldsOf l with
  | [] => ""
  | f :: _ => f

/-- The comma-splits of every line's sole value, as produced by
`temp[0].str.split(",", expand=True)` (`app.py` line 31). -/
def splitsOf (lines : List String) : List (List String) :=
  lines.map fun l => (splitCommaCh (headField l).toList).map fun cs => String.mk cs

/-- The width of the expanded split frame: the maximum number of fields
over all rows (shorter rows are padded with missing by `expand=True`). -/
def repairWidth (lines : List String) : Nat :=
  (splitsOf lines).foldl (fun m fs => max m fs.length) 0

/-- The repair path (`app.py` lines 26-45): re-split every line's sole
value on commas; assigning the ten schema names succeeds only when the
expanded frame has exactly ten columns, and otherwise raises the pandas
length-mismatch error. -/
def repairDF (lines : List String) : Except String RawDF :=
  if repairWidth lines = 10 then
    Except.ok (RawDF.mk schemaNames ((splitsOf lines).map (padTo 10)))
  else Except.error "Length mismatch"

/-- The guarded load (`app.py` lines 19-48): parse, repair when the
parse produced exactly one column, and report any exception raised
inside the guard as `Failed to parse CSV: ...`. -/
def loadRepair (lines : List String) : Except String RawDF :=
  match readCSV lines with
  | Except.error e => Except.error ("Failed to parse CSV: " ++ e)
  | Except.ok df =>
    if df.header.length = 1 then
      match repairDF lines with
      | Except.error e => Except.error ("Failed to parse CSV: " ++ e)
      | Except.ok d => Except.ok d
    else Except.ok df

/-- The eight columns coerced by the loop at `app.py` lines 51-52, in
loop order. -/
def numericCols : List String :=
  ["InvocationsPerMonth", "AvgDurationMs", "MemoryMB", "ColdStartRate",
   "ProvisionedConcurrency", "GBSeconds", "DataTransferGB", "CostUSD"]

/-- The position of a named column in the header, `none` when the
column is absent (a lookup then raises `KeyError`). -/
def colIdx (df : RawDF) (name : String) : Option Nat :=
  df.header.findIdx? fun h => h == name

/-- The cell of one raw row under a named column. -/
def getCell (df : RawDF) (raw : List Cell) (name : String) : Cell :=
  match colIdx df name with
  | some i => raw.getD i Cell.missing
  | none => Cell.missing

/-- A coerced numeric field of one row. -/
def numAt (df : RawDF) (raw : List Cell) (name : String) : Option ℚ :=
  toNumericCell (getCell df raw name)

/-- A string field of one row; non-string cells display as empty. -/
def strAt (df : RawDF) (raw : List Cell) (name : String) : String :=
  match getCell df raw name with
  | Cell.str s => s
  | _ => ""

/-- One coerced row assembled from a raw row. -/
def mkRow (df : RawDF) (raw : List Cell) : Row :=
  { FunctionName := strAt df raw "FunctionName"
    Environment := strAt df raw "Environment"
    InvocationsPerMonth := numAt df raw "InvocationsPerMonth"
    AvgDurationMs := numAt df raw "AvgDurationMs"
    MemoryMB := numAt df raw "MemoryMB"
    ColdStartRate := numAt df raw "ColdStartRate"
    ProvisionedConcurrency := numAt df raw "ProvisionedConcurrency"
    GBSeconds := numAt df raw "GBSeconds"
    DataTransferGB := numAt df raw "DataTransferGB"
    CostUSD := numAt df raw "CostUSD" }

/-- The coercion loop (`app.py` lines 50-53).  Each of the eight
numeric columns is looked up by name, so a header that lacks one raises
`KeyError` — outside the parse guard.  Coercion of the cell values
themselves never fails. -/
def coerceDF (df : RawDF) : Except String (List Row) :=
  match numericCols.find? (fun n => (colIdx df n).isNone) with
  | some n => Except.error ("KeyError: " ++ n)
  | none => Except.ok (df.rows.map (mkRow df))

/-- `df["CostUSD"].sum()` (`app.py` line 63): pandas sum skips missing
values and returns 0 for an all-missing column. -/
def totalCost (t : List Row) : ℚ :=
  t.foldl (fun acc r => acc + (r.CostUSD).getD 0) 0

/-- Boolean form of the descending CostUSD order used by
`df.sort_values("CostUSD", ascending=False)`: larger costs first,
missing costs last. -/
def costGeB (a b : Row) : Bool :=
  match a.CostUSD, b.CostUSD with
  | some x, some y => decide (y ≤ x)
  | some _, none => true
  | none, some _ => false
  | none, none => true

/-- The descending CostUSD order as a relation. -/
def costGe (a b : Row) : Prop :=
  costGeB a b = true

instance : DecidableRel costGe := fun a b => inferInstanceAs (Decidable (costGeB a b = true))

/-- `df.sort_values("CostUSD", ascending=False)` (`app.py` line 64),
modelled with insertion sort; the claims do not depend on the order of
rows with equal cost. -/
def sortByCostDesc (t : List Row) : List Row :=
  List.insertionSort costGe t

/-- One entry of the `CostPercent` column
(`df_sorted["CostUSD"] / total_cost * 100`, `app.py` line 65): missing
when the cost is missing, and non-finite — modelled as missing — when
the total is zero. -/
def costPercent (total : ℚ) (c : Option ℚ) : Option ℚ :=
  if total = 0 then none else c.map fun x => x / total * 100

/-- Annotates the sorted rows with their `CostPercent` and
`CumulativeCost` columns.  The running sum models
`Series.cumsum()` with its default `skipna=True`: a missing percent
yields a missing cumulative value and leaves the accumulator
unchanged. -/
def annotate (total : ℚ) : ℚ → List Row → List (Row × Option ℚ × Option ℚ)
  | _, [] => []
  | acc, r :: rest =>
    match costPercent total r.CostUSD with
    | none => (r, none, none) :: annotate total acc rest
    | some p => (r, some p, some (acc + p)) :: annotate total (acc + p) rest

/-- The fully annotated cost-concentration frame (`app.py`
lines 63-66): rows sorted by CostUSD descending, with `CostPercent` and
`CumulativeCost`. -/
def concentration (t : List Row) : List (Row × Option ℚ × Option ℚ) :=
  annotate (totalCost t) 0 (sortByCostDesc t)

/-- `df_sorted[df_sorted["CumulativeCost"] <= 80]` (`app.py` line 68). -/
def top_80 (t : List Row) : List (Row × Option ℚ × Option ℚ) :=
  (concentration t).filter fun x => optLeB x.2.2 80

/-- The right-sizing view (`app.py` lines 85-88): filter on
`AvgDurationMs < 600` and `MemoryMB > 1024`, then annotate
`EstimatedSavings = CostUSD * 0.30`. -/
def right_sizing (t : List Row) : List (Row × Option ℚ) :=
  (t.filter fun r => optLtB r.AvgDurationMs 600 && optGtB r.MemoryMB 1024).map
    fun r => (r, r.CostUSD.map fun c => c * (3 / 10))

/-- The provisioned-concurrency view (`app.py` lines 97-104): filter on
`ProvisionedConcurrency > 0`, then label each row from its
`ColdStartRate`; a missing rate compares false and yields the keep
label. -/
def pcView (t : List Row) : List (Row × String) :=
  (t.filter fun r => optGtB r.ProvisionedConcurrency 0).map
    fun r => (r, if optLtB r.ColdStartRate 10 then "❌ Reduce / Remove PC" else "✔️ Keep PC")

/-- `df["InvocationsPerMonth"].sum()` (`app.py` line 114), skipping
missing values. -/
def totalInv (t : List Row) : ℚ :=
  t.foldl (fun acc r => acc + (r.InvocationsPerMonth).getD 0) 0

/-- `df["CostUSD"].mean()` (`app.py` line 117): the mean of the present
values, missing when no value is present. -/
def meanCost (t : List Row) : Option ℚ :=
  let present := t.filterMap fun r => r.CostUSD
  if present.length = 0 then none else some (present.sum / present.length)

/-- The low-value workload view (`app.py` lines 114-118): rows whose
invocations are below 1% of the total and whose cost exceeds the mean
cost. -/
def low_value (t : List Row) : List Row :=
  t.filter fun r =>
    optLtB r.InvocationsPerMonth (totalInv t * (1 / 100)) && optGtOB r.CostUSD (meanCost t)

/-- The forecast of one row (`app.py` lines 128-134):
`InvocationsPerMonth * AvgDurationMs * MemoryMB * 0.00000000012
 + DataTransferGB * 0.09`, missing when any operand is missing. -/
def forecastedCost (r : Row) : Option ℚ :=
  optAdd
    (optScale (optMul (optMul r.InvocationsPerMonth r.AvgDurationMs) r.MemoryMB)
      (12 / 100000000000))
    (optScale r.DataTransferGB (9 / 100))

/-- The forecasting view: the full table with its `ForecastedCost`
column. -/
def forecastView (t : List Row) : List (Row × Option ℚ) :=
  t.map fun r => (r, forecastedCost r)

/-- The containerization view (`app.py` line 151): rows with
`AvgDurationMs > 3000` and `MemoryMB > 2048`. -/
def containersView (t : List Row) : List Row :=
  t.filter fun r => optGtB r.AvgDurationMs 3000 && optGtB r.MemoryMB 2048

/-- The six view results of one pipeline run. -/
structure Outputs where
  top80 : List (Row × Option ℚ × Option ℚ)
  rightSizing : List (Row × Option ℚ)
  pcAdvice : List (Row × String)
  lowValue : List Row
  forecast : List (Row × Option ℚ)
  containers : List Row
deriving DecidableEq, Repr

/-- All six views of the coerced table. -/
def allViews (rows : List Row) : Outputs :=
  Outputs.mk (top_80 rows) (right_sizing rows) (pcView rows) (low_value rows)
    (forecastView rows) (containersView rows)

/-- The whole pipeline: guarded load, coercion, then the six views.
A load failure or a coercion `KeyError` halts before any view is
computed. -/
def pipeline (lines : List String) : Except String Outputs :=
  match loadRepair lines with
  | Except.error e => Except.error e
  | Except.ok df =>
    match coerceDF df with
    | Except.error e => Except.error e
    | Except.ok rows => Except.ok (allViews rows)

/-- The dataframe state seen by the views: the ten canonical columns
(`rows`) plus the only derived column the script writes back into `df`
itself, `ForecastedCost` (`app.py` line 128). -/
structure DFState where
  rows : List Row
  forecast : Option (List (Option ℚ))
deriving DecidableEq, Repr

/-- The six views in source order. -/
inductive ViewTag where
  | concentrationV
  | rightSizingV
  | pcAdviceV
  | lowValueV
  | forecastingV
  | containersV
deriving DecidableEq, Repr

/-- The effect of evaluating one view on the shared dataframe: views
1-4 and 6 mutate only their own filtered copies, while the forecasting
view assigns `df["ForecastedCost"]`. -/
def applyView : ViewTag → DFState → DFState
  | ViewTag.forecastingV, df => DFState.mk df.rows (some (df.rows.map forecastedCost))
  | _, df => df

/-- The rows selected by one view of the shared dataframe. -/
def selectedRows : ViewTag → DFState → List Row
  | ViewTag.concentrationV, df => (top_80 df.rows).map fun x => x.1
  | ViewTag.rightSizingV, df => (right_sizing df.rows).map fun x => x.1
  | ViewTag.pcAdviceV, df => (pcView df.rows).map fun x => x.1
  | ViewTag.lowValueV, df => low_value df.rows
  | ViewTag.forecastingV, df => (forecastView df.rows).map fun x => x.1
  | ViewTag.containersV, df => containersView df.rows

/-- Evaluates a sequence of views for their effects on the shared
dataframe. -/
def runViews (l : List ViewTag) (df : DFState) : DFState :=
  l.foldl (fun d v => applyView v d) df

/-- Running sums of a rational list starting from an accumulator. -/
def runningSums (acc : ℚ) : List ℚ → List ℚ
  | [] => []
  | x :: r => (acc + x) :: runningSums (acc + x) r

/-- Concrete rows used in the witnesses below. -/
def rsIncluded : Row :=
  Row.mk "fast-big" "prod" none (some 500) (some 2048) none none none none (some 100)

def rsExcluded : Row :=
  Row.mk "slow" "prod" none (some 700) (some 2048) none none none none (some 100)

def pcReduceRow : Row :=
  Row.mk "warm" "prod" none none none (some 5) (some 5) none none none

def pcKeepRow : Row :=
  Row.mk "cold" "prod" none none none (some 15) (some 5) none none none

def forecastExample : Row :=
  Row.mk "payments-api" "prod" (some 1000000) (some 100) (some 128) none none none (some 0) none

/-- Claim C3: for every row with InvocationsPerMonth, AvgDurationMs,
MemoryMB and DataTransferGB present, the forecasting view computes
`ForecastedCost = InvocationsPerMonth * AvgDurationMs * MemoryMB *
1.2e-10 + DataTransferGB * 0.09` over the full table. -/
theorem forecast_formula :
    (∀ t : List Row, forecastView t = t.map fun r => (r, forecastedCost r))
    ∧ ∀ (r : Row) (i d m g : ℚ),
        r.InvocationsPerMonth = some i → r.AvgDurationMs = some d →
        r.MemoryMB = some m → r.DataTransferGB = some g →
        forecastedCost r = some (i * d * m * (12 / 100000000000) + g * (9 / 100)) := by
  refine ⟨fun t => rfl, ?_⟩
  intro r i d m g hi hd hm hg
  simp [forecastedCost, optAdd, optScale, optMul, hi, hd, hm, hg]

/-- Witness for C3: the spec's example row with one million monthly
invocations, 100 ms, 128 MB and no data transfer forecasts to exactly
1.536 dollars. -/
theorem forecast_formula_witness :
    forecastExample.InvocationsPerMonth = some 1000000
    ∧ forecastExample.AvgDurationMs = some 100
    ∧ forecastExample.MemoryMB = some 128
    ∧ forecastExample.DataTransferGB = some 0
    ∧ forecastedCost forecastExample = some 1.536 := by
  refine ⟨rfl, rfl, rfl, rfl, ?_⟩
  rw [forecast_formula.2 forecastExample 1000000 100 128 0 rfl rfl rfl rfl]
  norm_num

/-- Claim C4: numeric coercion is idempotent — re-running the coercion
on an already-coerced column returns the same values; already-numeric
cells are unchanged and unparsable cells become missing. -/
theorem coercion_idempotent :
    (∀ col : List Cell, to_numeric ((to_numeric col).map numericToCell) = to_numeric col)
    ∧ (∀ q : ℚ, toNumericCell (Cell.num q) = some q)
    ∧ (∀ s : String, parseNum s = none → toNumericCell (Cell.str s) = none) := by
  have h : ∀ c : Cell, toNumericCell (numericToCell (toNumericCell c)) = toNumericCell c := by
    intro c
    cases hc : toNumericCell c <;> rfl
  refine ⟨?_, fun q => rfl, fun s hs => hs⟩
  intro col
  induction col with
  | nil => rfl
  | cons c cs ih =>
    simp only [to_numeric, List.map_cons] at ih ⊢
    rw [h c, ih]

/-- Witness for C4: a concrete unparsable cell value coerces to a
missing value rather than an error. -/
theorem coercion_idempotent_witness :
    parseNum "n/a" = none ∧ toNumericCell (Cell.str "n/a") = none := by
  have h : parseNum "n/a" = none := by decide
  exact ⟨h, coercion_idempotent.2.2 "n/a" h⟩

/-- Claim C5: the right-sizing view selects exactly the rows with
AvgDurationMs < 600 and MemoryMB > 1024 and annotates each with
EstimatedSavings = CostUSD * 0.30; the 500 ms / 2048 MB / 100 USD row
is included with savings 30 and the 700 ms row is excluded. -/
theorem right_sizing_spec :
    (∀ (t : List Row) (r : Row) (s : Option ℚ),
        (r, s) ∈ right_sizing t ↔
          r ∈ t ∧ optLtB r.AvgDurationMs 600 = true ∧ optGtB r.MemoryMB 1024 = true
            ∧ s = r.CostUSD.map fun c => c * (3 / 10))
    ∧ right_sizing [rsIncluded, rsExcluded] = [(rsIncluded, some 30)] := by
  constructor
  · intro t r s
    simp only [right_sizing, List.mem_map, List.mem_filter, Bool.and_eq_true, Prod.mk.injEq]
    constructor
    · rintro ⟨a, ⟨hat, hp1, hp2⟩, rfl, rfl⟩
      exact ⟨hat, hp1, hp2, rfl⟩
    · rintro ⟨hat, hp1, hp2, rfl⟩
      exact ⟨r, ⟨hat, hp1, hp2⟩, rfl, rfl⟩
  · norm_num [right_sizing, rsIncluded, rsExcluded, optLtB, optGtB]

/-- Claim C6: the provisioned-concurrency view selects exactly the rows
with ProvisionedConcurrency > 0 and labels each from its ColdStartRate;
a rate of 5 yields the reduce/remove label and 15 yields keep. -/
theorem pc_recommendation_spec :
    (∀ (t : List Row) (r : Row) (lab : String),
        (r, lab) ∈ pcView t ↔
          r ∈ t ∧ optGtB r.ProvisionedConcurrency 0 = true
            ∧ lab = (if optLtB r.ColdStartRate 10 then "❌ Reduce / Remove PC" else "✔️ Keep PC"))
    ∧ pcView [pcReduceRow, pcKeepRow]
        = [(pcReduceRow, "❌ Reduce / Remove PC"), (pcKeepRow, "✔️ Keep PC")] := by
  constructor
  · intro t r lab
    simp only [pcView, List.mem_map, List.mem_filter, Prod.mk.injEq]
    constructor
    · rintro ⟨a, ⟨hat, hp⟩, rfl, rfl⟩
      exact ⟨hat, hp, rfl⟩
    · rintro ⟨hat, hp, rfl⟩
      exact ⟨r, ⟨hat, hp⟩, rfl, rfl⟩
  · decide

/-- Claim C8: no view changes the ten canonical columns of the shared
dataframe — only the forecasting view writes a derived column back, and
it is not one of the ten — so evaluating any sequence of views first
changes no view's selected rows. -/
theorem views_frame :
    (∀ (v : ViewTag) (df : DFState), (applyView v df).rows = df.rows)
    ∧ (∀ (l : List ViewTag) (df : DFState), (runViews l df).rows = df.rows)
    ∧ (∀ (l : List ViewTag) (v : ViewTag) (df : DFState),
        selectedRows v (runViews l df) = selectedRows v df) := by
  have h1 : ∀ (v : ViewTag) (df : DFState), (applyView v df).rows = df.rows := by
    intro v df
    cases v <;> rfl
  have h2 : ∀ (l : List ViewTag) (df : DFState), (runViews l df).rows = df.rows := by
    intro l
    induction l with
    | nil => intro df; rfl
    | cons v vs ih =>
      intro df
      have : runViews (v :: vs) df = runViews vs (applyView v df) := rfl
      rw [this, ih, h1]
  have hsel : ∀ (v : ViewTag) (df df' : DFState),
      df.rows = df'.rows → selectedRows v df = selectedRows v df' := by
    intro v df df' h
    cases v <;> simp [selectedRows, h]
  exact ⟨h1, h2, fun l v df => hsel v _ _ (h2 l df)⟩

/-- A fold of cost contributions over rows whose costs are all zero
leaves the accumulator unchanged. -/
lemma totalCost_foldl_zero :
    ∀ (t : List Row) (acc : ℚ), (∀ r ∈ t, r.CostUSD = some 0) →
      t.foldl (fun a r => a + (r.CostUSD).getD 0) acc = acc := by
  intro t
  induction t with
  | nil => intro acc _; rfl
  | cons r rest ih =>
    intro acc h
    have hr : r.CostUSD = some 0 := h r (List.mem_cons_self r rest)
    have : acc + (r.CostUSD).getD 0 = acc := by rw [hr]; simp
    simp only [List.foldl_cons, this]
    exact ih acc fun a ha => h a (List.mem_cons_of_mem _ ha)

/-- With a zero total, the percent column is missing everywhere and the
cumulative column follows. -/
lemma annotate_zero_total :
    ∀ (acc : ℚ) (s : List Row), annotate 0 acc s = s.map fun r => (r, none, none) := by
  intro acc s
  induction s generalizing acc with
  | nil => rfl
  | cons r rest ih =>
    have hc : costPercent 0 r.CostUSD = none := by simp [costPercent]
    simp [annotate, hc, ih]

/-- Claim C10: when every CostUSD is (present and) zero, the
cost-concentration view raises no error: the total is zero, every
CostPercent and CumulativeCost is the undefined (missing) value
produced by the unguarded division, and the 80%-prefix selection is
empty. -/
theorem zero_total_concentration (t : List Row) (h : ∀ r ∈ t, r.CostUSD = some 0) :
    totalCost t = 0
    ∧ (∀ x ∈ concentration t, x.2.1 = none ∧ x.2.2 = none)
    ∧ top_80 t = [] := by
  have htot : totalCost t = 0 := totalCost_foldl_zero t 0 h
  have hconc : concentration t = (sortByCostDesc t).map fun r => (r, none, none) := by
    rw [concentration, htot, annotate_zero_total]
  refine ⟨htot, ?_, ?_⟩
  · intro x hx
    rw [hconc] at hx
    obtain ⟨r, _, rfl⟩ := List.mem_map.mp hx
    exact ⟨rfl, rfl⟩
  · rw [top_80, hconc]
    refine List.filter_eq_nil_iff.mpr ?_
    intro x hx
    obtain ⟨r, _, rfl⟩ := List.mem_map.mp hx
    simp [optLeB]

/-- An all-zero-cost row for the C10 witness. -/
def zeroRow : Row := Row.mk "idle" "dev" none none none none none none none (some 0)

/-- Witness for C10 at a concrete one-row all-zero table. -/
theorem zero_total_concentration_witness :
    (∀ r ∈ [zeroRow], r.CostUSD = some 0) ∧ top_80 [zeroRow] = [] := by
  have h : ∀ r ∈ [zeroRow], r.CostUSD = some 0 := by
    intro r hr
    rw [List.mem_singleton.mp hr]
    rfl
  exact ⟨h, (zero_total_concentration [zeroRow] h).2.2⟩

/-- A true `series < c` comparison forces a present value. -/
lemma optLtB_isSome (o : Option ℚ) (c : ℚ) (h : optLtB o c = true) : o.isSome = true := by
  cases o with
  | none => simp [optLtB] at h
  | some x => rfl

/-- A true `series > c` comparison forces a present value. -/
lemma optGtB_isSome (o : Option ℚ) (c : ℚ) (h : optGtB o c = true) : o.isSome = true := by
  cases o with
  | none => simp [optGtB] at h
  | some x => rfl

/-- A true `series <= c` comparison forces a present value. -/
lemma optLeB_isSome (o : Option ℚ) (c : ℚ) (h : optLeB o c = true) : o.isSome = true := by
  cases o with
  | none => simp [optLeB] at h
  | some x => rfl

/-- A true `series > other` comparison forces a present left value. -/
lemma optGtOB_isSome (a b : Option ℚ) (h : optGtOB a b = true) : a.isSome = true := by
  cases a with
  | none => simp [optGtOB] at h
  | some x => rfl

/-- A present cumulative value in the annotated frame forces a present
CostUSD in its row: a missing cost yields a missing percent and hence a
missing cumulative value. -/
lemma annotate_cum_isSome (total : ℚ) :
    ∀ (acc : ℚ) (s : List Row) (x : Row × Option ℚ × Option ℚ),
      x ∈ annotate total acc s → (x.2.2).isSome = true → (x.1.CostUSD).isSome = true := by
  intro acc s
  induction s generalizing acc with
  | nil => intro x hx; simp [annotate] at hx
  | cons r rest ih =>
    intro x hx hs
    cases hc : costPercent total r.CostUSD with
    | none =>
      rw [annotate, hc] at hx
      rcases List.mem_cons.mp hx with h0 | h0
      · rw [h0] at hs
        simp at hs
      · exact ih acc x h0 hs
    | some p =>
      rw [annotate, hc] at hx
      rcases List.mem_cons.mp hx with h0 | h0
      · have hcost : (r.CostUSD).isSome = true := by
          by_cases ht : total = 0
          · rw [costPercent, if_pos ht] at hc
            exact absurd hc (by simp)
          · rw [costPercent, if_neg ht] at hc
            cases hr : r.CostUSD with
            | none => rw [hr] at hc; exact absurd hc (by simp)
            | some c => rfl
        rw [h0]
        exact hcost
      · exact ih (acc + p) x h0 hs

/-- Claim C7: in every filtering view, a row whose compared field is
missing is excluded — equivalently, every selected row has the compared
fields present. -/
theorem missing_field_excluded :
    (∀ (t : List Row) (x : Row × Option ℚ × Option ℚ), x ∈ top_80 t →
        (x.1.CostUSD).isSome = true)
    ∧ (∀ (t : List Row) (x : Row × Option ℚ), x ∈ right_sizing t →
        (x.1.AvgDurationMs).isSome = true ∧ (x.1.MemoryMB).isSome = true)
    ∧ (∀ (t : List Row) (x : Row × String), x ∈ pcView t →
        (x.1.ProvisionedConcurrency).isSome = true)
    ∧ (∀ (t : List Row) (r : Row), r ∈ low_value t →
        (r.InvocationsPerMonth).isSome = true ∧ (r.CostUSD).isSome = true)
    ∧ (∀ (t : List Row) (r : Row), r ∈ containersView t →
        (r.AvgDurationMs).isSome = true ∧ (r.MemoryMB).isSome = true) := by
  refine ⟨?_, ?_, ?_, ?_, ?_⟩
  · intro t x hx
    have hm := List.mem_filter.mp hx
    exact annotate_cum_isSome (totalCost t) 0 (sortByCostDesc t) x hm.1
      (optLeB_isSome _ _ hm.2)
  · intro t x hx
    obtain ⟨a, ha, rfl⟩ := List.mem_map.mp hx
    have hm := List.mem_filter.mp ha
    have hb := hm.2
    rw [Bool.and_eq_true] at hb
    obtain ⟨hp1, hp2⟩ := hb
    exact ⟨optLtB_isSome _ _ hp1, optGtB_isSome _ _ hp2⟩
  · intro t x hx
    obtain ⟨a, ha, rfl⟩ := List.mem_map.mp hx
    have hm := List.mem_filter.mp ha
    exact optGtB_isSome _ _ hm.2
  · intro t r hr
    have hm := List.mem_filter.mp hr
    have hb := hm.2
    rw [Bool.and_eq_true] at hb
    obtain ⟨hp1, hp2⟩ := hb
    exact ⟨optLtB_isSome _ _ hp1, optGtOB_isSome _ _ hp2⟩
  · intro t r hr
    have hm := List.mem_filter.mp hr
    have hb := hm.2
    rw [Bool.and_eq_true] at hb
    obtain ⟨hp1, hp2⟩ := hb
    exact ⟨optGtB_isSome _ _ hp1, optGtB_isSome _ _ hp2⟩

/-- Witness for C7: a concrete selected right-sizing row has its
compared fields present. -/
theorem missing_field_excluded_witness :
    (rsIncluded, (some 30 : Option ℚ)) ∈ right_sizing [rsIncluded, rsExcluded]
    ∧ (rsIncluded.AvgDurationMs).isSome = true
    ∧ (rsIncluded.MemoryMB).isSome = true := by
  have he : right_sizing [rsIncluded, rsExcluded] = [(rsIncluded, some 30)] := by
    norm_num [right_sizing, rsIncluded, rsExcluded, optLtB, optGtB]
  have hm : (rsIncluded, (some 30 : Option ℚ)) ∈ right_sizing [rsIncluded, rsExcluded] := by
    rw [he]
    exact List.mem_singleton.mpr rfl
  have h := missing_field_excluded.2.1 [rsIncluded, rsExcluded] (rsIncluded, some 30) hm
  exact ⟨hm, h.1, h.2⟩

/-- Claim C2, amended: a single-column parse takes the repair path,
which splits each line's sole value on every comma; when the widest
line yields exactly ten fields the result is a table with exactly the
ten schema columns in order, and otherwise the column assignment raises
inside the parse guard.  A well-formed ten-column parse never takes the
repair path. -/
theorem single_column_repair :
    (∀ (lines : List String) (df : RawDF),
        readCSV lines = Except.ok df → df.header.length = 1 →
          ((repairWidth lines = 10 →
              loadRepair lines
                = Except.ok (RawDF.mk schemaNames ((splitsOf lines).map (padTo 10))))
            ∧ (repairWidth lines ≠ 10 →
              loadRepair lines = Except.error "Failed to parse CSV: Length mismatch")))
    ∧ (∀ (lines : List String) (df : RawDF),
        readCSV lines = Except.ok df → df.header.length = 10 →
          loadRepair lines = Except.ok df) := by
  constructor
  · intro lines df hread hlen
    constructor
    · intro hw
      simp [loadRepair, hread, hlen, repairDF, hw]
    · intro hw
      simp [loadRepair, hread, hlen, repairDF, hw]
  · intro lines df hread hlen
    simp [loadRepair, hread, hlen]

/-- A degenerate single-column CSV whose sole value is ten
comma-joined fields. -/
def degenLines : List String := ["\"a,b,c,d,e,f,g,h,i,j\""]

/-- The initial parse of `degenLines`: one column, no data rows. -/
def degenRaw : RawDF := RawDF.mk ["a,b,c,d,e,f,g,h,i,j"] []

/-- Witness for C2: the degenerate file is detected as single-column
and repaired into a table with exactly the ten schema columns. -/
theorem single_column_repair_witness :
    readCSV degenLines = Except.ok degenRaw
    ∧ degenRaw.header.length = 1
    ∧ repairWidth degenLines = 10
    ∧ loadRepair degenLines
        = Except.ok (RawDF.mk schemaNames ((splitsOf degenLines).map (padTo 10))) := by
  refine ⟨rfl, rfl, by decide, ?_⟩
  exact (single_column_repair.1 degenLines degenRaw rfl rfl).1 (by decide)

/-- A single-column CSV whose sole value splits into two fields, not
ten. -/
def badRepairLines : List String := ["\"a,b\""]

/-- Counterexample to C2 as stated: this file is detected as
single-column, but the repair produces no ten-column table — the column
assignment raises a length mismatch and the load reports an error. -/
theorem single_column_repair_counterexample :
    readCSV badRepairLines = Except.ok (RawDF.mk ["a,b"] [])
    ∧ (RawDF.mk ["a,b"] ([] : List (List Cell))).header.length = 1
    ∧ loadRepair badRepairLines = Except.error "Failed to parse CSV: Length mismatch" := by
  exact ⟨rfl, rfl, rfl⟩

/-- Claim C9, amended: the pipeline halts with the load error exactly
when the guarded CSV decode raises; it can also fail after a successful
decode when a numeric column is absent from the header (an uncaught
`KeyError`); otherwise it computes all six views of the coerced rows.
Coercion of an unparsable cell value is never an error — it yields a
missing value. -/
theorem pipeline_error_spec :
    (∀ (lines : List String) (e : String),
        loadRepair lines = Except.error e → pipeline lines = Except.error e)
    ∧ (∀ (lines : List String) (df : RawDF) (e : String),
        loadRepair lines = Except.ok df → coerceDF df = Except.error e →
          pipeline lines = Except.error e)
    ∧ (∀ (lines : List String) (df : RawDF) (rows : List Row),
        loadRepair lines = Except.ok df → coerceDF df = Except.ok rows →
          pipeline lines = Except.ok (allViews rows))
    ∧ (∀ s : String, parseNum s = none → toNumericCell (Cell.str s) = none) := by
  refine ⟨?_, ?_, ?_, fun s hs => hs⟩
  · intro lines e h
    simp [pipeline, h]
  · intro lines df e h1 h2
    simp [pipeline, h1, h2]
  · intro lines df rows h1 h2
    simp [pipeline, h1, h2]

/-- Witness for C9: the empty file raises during decode and the
pipeline halts with that message before any view is computed. -/
theorem pipeline_error_spec_witness :
    loadRepair [] = Except.error "Failed to parse CSV: No columns to parse from file"
    ∧ pipeline [] = Except.error "Failed to parse CSV: No columns to parse from file" :=
  ⟨rfl, pipeline_error_spec.1 [] "Failed to parse CSV: No columns to parse from file" rfl⟩

/-- A well-formed ten-column CSV whose header does not use the schema
names. -/
def mismatchedHeader : List String :=
  ["A,B,C,D,E,F,G,H,I,J", "x,y,1,2,3,4,5,6,7,8"]

/-- Counterexample to C9 as stated: decoding this file succeeds, yet
the pipeline fails — the coercion loop's first column lookup raises a
`KeyError` outside the parse guard. -/
theorem pipeline_error_spec_counterexample :
    (∃ df, loadRepair mismatchedHeader = Except.ok df)
    ∧ pipeline mismatchedHeader = Except.error "KeyError: InvocationsPerMonth" := by
  refine ⟨⟨RawDF.mk ["A", "B", "C", "D", "E", "F", "G", "H", "I", "J"]
    [[Cell.str "x", Cell.str "y", Cell.str "1", Cell.str "2", Cell.str "3",
      Cell.str "4", Cell.str "5", Cell.str "6", Cell.str "7", Cell.str "8"]], ?_⟩, ?_⟩
  · rfl
  · rfl

instance : IsTotal Row costGe := ⟨by
  intro a b
  simp only [costGe, costGeB]
  rcases a.CostUSD with _ | x <;> rcases b.CostUSD with _ | y <;> simp
  exact le_total y x⟩

instance : IsTrans Row costGe := ⟨by
  intro a b c
  simp only [costGe, costGeB]
  rcases a.CostUSD with _ | x <;> rcases b.CostUSD with _ | y <;>
    rcases c.CostUSD with _ | z <;> simp
  exact fun h1 h2 => le_trans h2 h1⟩

/-- The rows of the annotated concentration frame are the sorted rows,
in order. -/
lemma annotate_map_fst (total : ℚ) :
    ∀ (acc : ℚ) (s : List Row), (annotate total acc s).map (fun x => x.1) = s := by
  intro acc s
  induction s generalizing acc with
  | nil => rfl
  | cons r rest ih =>
    cases hc : costPercent total r.CostUSD with
    | none => simp [annotate, hc, ih]
    | some p => simp [annotate, hc, ih]

/-- With a nonzero total and all costs present, the percent column is
exactly `CostUSD / total * 100` row by row. -/
lemma annotate_map_pct (total : ℚ) (hx : total ≠ 0) :
    ∀ (acc : ℚ) (s : List Row), (∀ r ∈ s, (r.CostUSD).isSome = true) →
      (annotate total acc s).map (fun x => x.2.1)
        = s.map fun r => some ((r.CostUSD).getD 0 / total * 100) := by
  intro acc s
  induction s generalizing acc with
  | nil => intro _; rfl
  | cons r rest ih =>
    intro h
    obtain ⟨q, hq⟩ := Option.isSome_iff_exists.mp (h r (List.mem_cons_self r rest))
    have hc : costPercent total (some q) = some (q / total * 100) := by
      simp [costPercent, hx]
    simp [annotate, hq, hc, ih _ fun a ha => h a (List.mem_cons_of_mem _ ha)]

/-- With a nonzero total and all costs present, the cumulative column
is exactly the running sums of the percent column. -/
lemma annotate_map_cum (total : ℚ) (hx : total ≠ 0) :
    ∀ (acc : ℚ) (s : List Row), (∀ r ∈ s, (r.CostUSD).isSome = true) →
      (annotate total acc s).map (fun x => x.2.2)
        = (runningSums acc (s.map fun r => (r.CostUSD).getD 0 / total * 100)).map some := by
  intro acc s
  induction s generalizing acc with
  | nil => intro _; rfl
  | cons r rest ih =>
    intro h
    obtain ⟨q, hq⟩ := Option.isSome_iff_exists.mp (h r (List.mem_cons_self r rest))
    have hc : costPercent total (some q) = some (q / total * 100) := by
      simp [costPercent, hx]
    simp [annotate, hq, hc, runningSums,
      ih _ fun a ha => h a (List.mem_cons_of_mem _ ha)]

/-- Running sums of nonnegative values are non-decreasing. -/
lemma runningSums_chain :
    ∀ (l : List ℚ) (acc : ℚ), (∀ x ∈ l, 0 ≤ x) →
      List.Chain' (fun a b => a ≤ b) (runningSums acc l) := by
  intro l
  induction l with
  | nil => intro acc _; simp [runningSums]
  | cons x r ih =>
    intro acc h
    cases r with
    | nil => simp [runningSums]
    | cons y r2 =>
      have hy : 0 ≤ y := h y (List.mem_cons_of_mem _ (List.mem_cons_self y r2))
      have htail := ih (acc + x) fun a ha => h a (List.mem_cons_of_mem _ ha)
      rw [show runningSums acc (x :: y :: r2)
            = (acc + x) :: runningSums (acc + x) (y :: r2) from rfl]
      rw [List.chain'_cons']
      refine ⟨?_, htail⟩
      intro b hb
      rw [show runningSums (acc + x) (y :: r2)
            = (acc + x + y) :: runningSums (acc + x + y) r2 from rfl] at hb
      simp only [List.head?_cons, Option.mem_def, Option.some.injEq] at hb
      rw [← hb]
      linarith

/-- Filtering with a predicate closed under moving earlier in the list
is the same as taking the longest satisfying front segment. -/
lemma filter_eq_takeWhile_of_pw {α : Type} (p : α → Bool) :
    ∀ l : List α, List.Pairwise (fun a b => p b = true → p a = true) l →
      l.filter p = l.takeWhile p := by
  intro l h
  induction l with
  | nil => rfl
  | cons a l ih =>
    obtain ⟨ha, hl⟩ := List.pairwise_cons.mp h
    cases hpa : p a with
    | true => simp [List.filter_cons, List.takeWhile_cons, hpa, ih hl]
    | false =>
      have hall : ∀ b ∈ l, ¬ (p b = true) := by
        intro b hb hpb
        have := ha b hb hpb
        simp [hpa] at this
      simp [List.filter_cons, List.takeWhile_cons, hpa, List.filter_eq_nil_iff.mpr hall]

/-- The satisfying front segment is a front segment: it equals a `take`
of the list. -/
lemma takeWhile_as_take {α : Type} (p : α → Bool) :
    ∀ l : List α, l.takeWhile p = l.take (l.takeWhile p).length := by
  intro l
  induction l with
  | nil => rfl
  | cons a l ih =>
    cases hpa : p a with
    | true =>
      have h1 : (a :: l).takeWhile p = a :: l.takeWhile p := by
        simp [List.takeWhile_cons, hpa]
      rw [h1]
      simp only [List.length_cons, List.take_succ_cons]
      rw [← ih]
    | false =>
      simp [List.takeWhile_cons, hpa]

/-- The first element surviving `dropWhile` fails the predicate. -/
lemma head_dropWhile_false {α : Type} (p : α → Bool) :
    ∀ (l : List α) (x : α), (l.dropWhile p).head? = some x → p x = false := by
  intro l
  induction l with
  | nil => intro x hx; simp [List.dropWhile] at hx
  | cons a l ih =>
    intro x hx
    rw [List.dropWhile_cons] at hx
    cases hpa : p a with
    | true =>
      simp [hpa] at hx
      exact ih x hx
    | false =>
      simp [hpa] at hx
      rw [← hx]
      exact hpa

/-- The first element surviving `dropWhile` is in the list. -/
lemma head_dropWhile_mem {α : Type} (p : α → Bool) (l : List α) (x : α)
    (hx : (l.dropWhile p).head? = some x) : x ∈ l := by
  have hsplit := List.takeWhile_append_dropWhile p l
  have hxdw : x ∈ l.dropWhile p := by
    cases hdw : l.dropWhile p with
    | nil => rw [hdw] at hx; simp at hx
    | cons a l2 =>
      rw [hdw] at hx
      simp only [List.head?_cons, Option.some.injEq] at hx
      rw [hx]
      exact List.mem_cons_self x l2
  rw [← hsplit]
  exact List.mem_append_right _ hxdw

/-- Claim C1, amended: for every coerced table whose CostUSD values are
all present and nonnegative with positive total, the cost-concentration
view sorts rows by CostUSD descending, assigns
`CostPercent = CostUSD / total * 100` and `CumulativeCost` as the
running sum of CostPercent, the CumulativeCost sequence is
non-decreasing, and the selected subset (`CumulativeCost <= 80`) is a
prefixed front segment of the sorted sequence whose members all have
CumulativeCost at most 80 while the next excluded row exceeds 80. -/
theorem top80_prefix_monotone (t : List Row)
    (h1 : ∀ r ∈ t, (r.CostUSD).isSome = true)
    (h2 : ∀ r ∈ t, 0 ≤ (r.CostUSD).getD 0)
    (h3 : 0 < totalCost t) :
    List.Perm (sortByCostDesc t) t
    ∧ List.Sorted costGe (sortByCostDesc t)
    ∧ (concentration t).map (fun x => x.1) = sortByCostDesc t
    ∧ (concentration t).map (fun x => x.2.1)
        = (sortByCostDesc t).map (fun r => some ((r.CostUSD).getD 0 / totalCost t * 100))
    ∧ (concentration t).map (fun x => x.2.2)
        = (runningSums 0
            ((sortByCostDesc t).map fun r => (r.CostUSD).getD 0 / totalCost t * 100)).map some
    ∧ List.Chain' (fun a b => a ≤ b)
        (runningSums 0 ((sortByCostDesc t).map fun r => (r.CostUSD).getD 0 / totalCost t * 100))
    ∧ (∃ k, top_80 t = (concentration t).take k)
    ∧ (∀ x ∈ top_80 t, ∃ q, x.2.2 = some q ∧ q ≤ 80)
    ∧ (∀ x, ((concentration t).drop (top_80 t).length).head? = some x →
        ∃ q, x.2.2 = some q ∧ 80 < q) := by
  have hperm : List.Perm (sortByCostDesc t) t := List.perm_insertionSort costGe t
  have hsorted : List.Sorted costGe (sortByCostDesc t) := List.sorted_insertionSort costGe t
  have h1s : ∀ r ∈ sortByCostDesc t, (r.CostUSD).isSome = true := fun r hr =>
    h1 r (hperm.mem_iff.mp hr)
  have h2s : ∀ r ∈ sortByCostDesc t, 0 ≤ (r.CostUSD).getD 0 := fun r hr =>
    h2 r (hperm.mem_iff.mp hr)
  have htne : totalCost t ≠ 0 := ne_of_gt h3
  have hfst : (concentration t).map (fun x => x.1) = sortByCostDesc t :=
    annotate_map_fst (totalCost t) 0 (sortByCostDesc t)
  have hpct : (concentration t).map (fun x => x.2.1)
      = (sortByCostDesc t).map (fun r => some ((r.CostUSD).getD 0 / totalCost t * 100)) :=
    annotate_map_pct (totalCost t) htne 0 (sortByCostDesc t) h1s
  have hcum : (concentration t).map (fun x => x.2.2)
      = (runningSums 0
          ((sortByCostDesc t).map fun r => (r.CostUSD).getD 0 / totalCost t * 100)).map some :=
    annotate_map_cum (totalCost t) htne 0 (sortByCostDesc t) h1s
  have hnn : ∀ x ∈ (sortByCostDesc t).map fun r => (r.CostUSD).getD 0 / totalCost t * 100,
      0 ≤ x := by
    intro x hxp
    obtain ⟨r, hr, rfl⟩ := List.mem_map.mp hxp
    have := h2s r hr
    have hd : 0 ≤ (r.CostUSD).getD 0 / totalCost t := div_nonneg this (le_of_lt h3)
    nlinarith
  have hchain := runningSums_chain _ 0 hnn
  have hpres : ∀ x ∈ concentration t, ∃ q, x.2.2 = some q := by
    intro x hxm
    have hmm : x.2.2 ∈ (concentration t).map fun x => x.2.2 :=
      List.mem_map_of_mem _ hxm
    rw [hcum] at hmm
    obtain ⟨q, _, hq2⟩ := List.mem_map.mp hmm
    exact ⟨q, hq2.symm⟩
  have hpw0 : List.Pairwise (fun a b : ℚ => a ≤ b)
      (runningSums 0 ((sortByCostDesc t).map fun r => (r.CostUSD).getD 0 / totalCost t * 100)) :=
    List.chain'_iff_pairwise.mp hchain
  have hpw1 : List.Pairwise
      (fun a b : Option ℚ => ∀ qa qb, a = some qa → b = some qb → qa ≤ qb)
      ((runningSums 0
        ((sortByCostDesc t).map fun r => (r.CostUSD).getD 0 / totalCost t * 100)).map some) := by
    rw [List.pairwise_map]
    refine hpw0.imp ?_
    intro a b hab qa qb ha hb
    obtain rfl := Option.some.inj ha
    obtain rfl := Option.some.inj hb
    exact hab
  have hpwc : List.Pairwise
      (fun x y : Row × Option ℚ × Option ℚ =>
        ∀ qa qb, x.2.2 = some qa → y.2.2 = some qb → qa ≤ qb) (concentration t) := by
    rw [← hcum] at hpw1
    exact List.pairwise_map.mp hpw1
  have hpwf : List.Pairwise
      (fun x y : Row × Option ℚ × Option ℚ =>
        optLeB y.2.2 80 = true → optLeB x.2.2 80 = true) (concentration t) := by
    refine hpwc.imp_of_mem ?_
    intro x y hxm hym hP hy
    obtain ⟨qx, hqx⟩ := hpres x hxm
    obtain ⟨qy, hqy⟩ := hpres y hym
    rw [hqy] at hy
    rw [hqx]
    simp only [optLeB, decide_eq_true_eq] at hy ⊢
    exact le_trans (hP qx qy hqx hqy) hy
  have hft : top_80 t = (concentration t).takeWhile fun x => optLeB x.2.2 80 :=
    filter_eq_takeWhile_of_pw _ _ hpwf
  refine ⟨hperm, hsorted, hfst, hpct, hcum, hchain, ?_, ?_, ?_⟩
  · refine ⟨(top_80 t).length, ?_⟩
    rw [hft]
    exact takeWhile_as_take _ _
  · intro x hxm
    have hm := List.mem_filter.mp hxm
    obtain ⟨q, hq⟩ := hpres x hm.1
    refine ⟨q, hq, ?_⟩
    have hb := hm.2
    rw [hq] at hb
    simpa [optLeB] using hb
  · intro x hx
    have hdrop : (concentration t).drop (top_80 t).length
        = (concentration t).dropWhile fun y => optLeB y.2.2 80 := by
      rw [hft]
      have h0 := List.takeWhile_append_dropWhile (fun y => optLeB y.2.2 80) (concentration t)
      have hdl := List.drop_left ((concentration t).takeWhile fun y => optLeB y.2.2 80)
        ((concentration t).dropWhile fun y => optLeB y.2.2 80)
      rw [h0] at hdl
      exact hdl
    rw [hdrop] at hx
    have hpx : optLeB x.2.2 80 = false := head_dropWhile_false _ _ x hx
    have hxcc : x ∈ concentration t := head_dropWhile_mem _ _ x hx
    obtain ⟨q, hq⟩ := hpres x hxcc
    refine ⟨q, hq, ?_⟩
    rw [hq] at hpx
    simp only [optLeB, decide_eq_false_iff_not] at hpx
    exact lt_of_not_le hpx

/-- The spec's cost-concentration example rows: costs 50, 30, 20. -/
def cRow50 : Row := Row.mk "api" "prod" none none none none none none none (some 50)

def cRow30 : Row := Row.mk "etl" "prod" none none none none none none none (some 30)

def cRow20 : Row := Row.mk "cron" "prod" none none none none none none none (some 20)

def paretoExample : List Row := [cRow50, cRow30, cRow20]

/-- Witness for C1 at the spec's example table: CostPercent is
[50, 30, 20], CumulativeCost is [50, 80, 100], and the 80% selection is
exactly the first two rows — a front segment of the sorted sequence. -/
theorem top80_prefix_monotone_witness :
    (∀ r ∈ paretoExample, (r.CostUSD).isSome = true)
    ∧ (∀ r ∈ paretoExample, 0 ≤ (r.CostUSD).getD 0)
    ∧ 0 < totalCost paretoExample
    ∧ (concentration paretoExample).map (fun x => x.2.1) = [some 50, some 30, some 20]
    ∧ (concentration paretoExample).map (fun x => x.2.2) = [some 50, some 80, some 100]
    ∧ (top_80 paretoExample).map (fun x => x.1) = [cRow50, cRow30]
    ∧ (∃ k, top_80 paretoExample = (concentration paretoExample).take k) := by
  have e1 : ∀ r ∈ paretoExample, (r.CostUSD).isSome = true := by decide
  have e2 : ∀ r ∈ paretoExample, 0 ≤ (r.CostUSD).getD 0 := by decide
  have e3 : 0 < totalCost paretoExample := by
    norm_num [totalCost, paretoExample, cRow50, cRow30, cRow20]
  refine ⟨e1, e2, e3, ?_, ?_, ?_,
    (top80_prefix_monotone paretoExample e1 e2 e3).2.2.2.2.2.2.1⟩
  · norm_num [concentration, paretoExample, cRow50, cRow30, cRow20, sortByCostDesc,
      List.insertionSort, List.orderedInsert, costGe, costGeB, totalCost, annotate,
      costPercent]
  · norm_num [concentration, paretoExample, cRow50, cRow30, cRow20, sortByCostDesc,
      List.insertionSort, List.orderedInsert, costGe, costGeB, totalCost, annotate,
      costPercent]
  · norm_num [top_80, concentration, paretoExample, cRow50, cRow30, cRow20, sortByCostDesc,
      List.insertionSort, List.orderedInsert, costGe, costGeB, totalCost, annotate,
      costPercent, optLeB, List.filter]

/-- A table with a negative CostUSD value, all values present. -/
def negRowA : Row := Row.mk "big" "prod" none none none none none none none (some 10)

def negRowB : Row := Row.mk "credit" "prod" none none none none none none none (some (-5))

def negTable : List Row := [negRowA, negRowB]

/-- Counterexample to C1 as stated: all CostUSD values of this table
are present, yet the CumulativeCost sequence of the sorted rows is
[200, 100] — strictly decreasing, not non-decreasing. -/
theorem top80_prefix_monotone_counterexample :
    (∀ r ∈ negTable, (r.CostUSD).isSome = true)
    ∧ (concentration negTable).map (fun x => x.2.2) = [some 200, some 100]
    ∧ ¬ List.Chain' (fun a b : Option ℚ => ∀ qa qb, a = some qa → b = some qb → qa ≤ qb)
        ((concentration negTable).map fun x => x.2.2) := by
  have he : (concentration negTable).map (fun x => x.2.2) = [some 200, some 100] := by
    norm_num [concentration, negTable, negRowA, negRowB, sortByCostDesc, List.insertionSort,
      List.orderedInsert, costGe, costGeB, totalCost, annotate, costPercent, runningSums]
  refine ⟨by decide, he, ?_⟩
  intro h
  rw [he] at h
  have h2 := (List.chain'_cons).mp h
  have h3 := h2.1 200 100 rfl rfl
  norm_num at h3

end FinOps
